import Mathlib

/-!
Shallow embedding of the shape-record decoder from src/main.cpp.

The program decodes one binary record, consisting of a fixed-width kind tag
followed by a kind-dependent number of floating-point parameters, and renders
the decoded shape through a drawing surface.

Modelling choices:
- Parameter values are opaque payloads: the program performs no arithmetic on
  them (they are read, stored, and handed to the surface unchanged), so they
  are modelled as `Int`.
- The kind tag is modelled as `Nat`: the source reads the enum `Figure::Type`
  as raw bytes, so any integer value (including unregistered ones such as 99)
  can arrive on the wire; the enum constants eCircle, eTriangle, eSquare have
  the usual values 0, 1, 2.
- Side effects on the drawing surface (IDrawer) are modelled as a trace, a
  list of `DrawCall` values, one per primitive invocation.
- Heap allocation (`new FigureImpl()` inside the factory closures, and the
  shared_ptr cache in `Feature`) is modelled by threading a next-fresh-address
  counter; each constructed `Figure` carries its address, so object identity
  (pointer equality) is expressible.
- `IReader` calls made by a single `Feature::read` are modelled by a `Source`
  holding the result of the kind-tag read and the list of numeric values still
  available; a read of `n` values succeeds exactly when `n` values are
  available, matching the `fread(...) == count` check.
-/

/-- Parameter values (C++ double): opaque payloads, no arithmetic is ever
performed on them by the program. -/
abbrev Val := Int

/-- One primitive invocation on the drawing surface (Drawer::IDrawer). -/
inductive DrawCall where
  | drawCircle (centerX centerY radius : Val)
  | drawPoligon (points : List Val)
deriving DecidableEq, Repr

/-- Enum constant Figure::eCircle. -/
def eCircle : Nat := 0

/-- Enum constant Figure::eTriangle. -/
def eTriangle : Nat := 1

/-- Enum constant Figure::eSquare. -/
def eSquare : Nat := 2

/-- The concrete figure classes of the source: Circle, Triangle, Square.
A value of this type stands for a concrete class (equivalently, for the
constructor closure the factory stores for it). -/
inductive FigureImpl where
  | Circle
  | Triangle
  | Square
deriving DecidableEq, Repr

/-- A constructed figure object (class Figure::Figure). `ftype` and
`countParams` model the private fields set once by the base-class constructor
and never written again; `impl` models the dynamic type (vtable) and `addr`
the heap address of the object. -/
structure Figure where
  ftype : Nat
  countParams : Nat
  impl : FigureImpl
  addr : Nat
deriving DecidableEq, Repr

/-- The static constant TYPE of each concrete class. -/
def FigureImpl.TYPE : FigureImpl → Nat
  | .Circle => eCircle
  | .Triangle => eTriangle
  | .Square => eSquare

/-- The static constant COUNT_PARAMS of each concrete class
(Circle = 3, Triangle = 6, Square = 8). -/
def FigureImpl.COUNT_PARAMS : FigureImpl → Nat
  | .Circle => 3
  | .Triangle => 6
  | .Square => 8

/-- Running a constructor: each concrete class constructor calls the Figure
base constructor with its static TYPE and COUNT_PARAMS; `addr` is the fresh
heap address handed out by `new`. -/
def FigureImpl.construct (i : FigureImpl) (addr : Nat) : Figure :=
  ⟨i.TYPE, i.COUNT_PARAMS, i, addr⟩

/-- Virtual Figure::draw, dispatched on the dynamic type. Each override
guards on its own static COUNT_PARAMS and then issues exactly one surface
primitive: Circle calls drawCircle with params[0], params[1], params[2];
Triangle and Square call drawPoligon with the whole parameter vector.
When the guard fails nothing is drawn. -/
def Figure.draw (f : Figure) (params : List Val) : List DrawCall :=
  match f.impl with
  | .Circle =>
      if params.length ≥ 3 then
        [DrawCall.drawCircle (params.getD 0 0) (params.getD 1 0) (params.getD 2 0)]
      else []
  | .Triangle =>
      if params.length ≥ 6 then [DrawCall.drawPoligon params] else []
  | .Square =>
      if params.length ≥ 8 then [DrawCall.drawPoligon params] else []

/-- Lookup in an association list keyed by kind tag; models find on the
unordered maps of the source (keys are kept unique by construction). -/
def assocFind {α : Type} : Nat → List (Nat × α) → Option α
  | _, [] => none
  | k, (k2, v) :: rest => if k = k2 then some v else assocFind k rest

/-- Figure::Factory: the registry mapping a kind tag to the constructor
stored for it (std::unordered_map<Type, std::function<Figure*()>>). -/
structure Factory where
  figureFactory : List (Nat × FigureImpl)
deriving DecidableEq, Repr

/-- A default-constructed factory: empty registry. -/
def Factory.empty : Factory := ⟨[]⟩

/-- The private single-type Factory::registerFigure<FigureImpl>(bool &res):
if the kind is already present it sets res to false and returns without
touching the registry; otherwise it emplaces the constructor and leaves res
as it was. -/
def Factory.registerFigure1 (fac : Factory) (impl : FigureImpl) (res : Bool) :
    Factory × Bool :=
  match assocFind impl.TYPE fac.figureFactory with
  | some _ => (fac, false)
  | none => (⟨fac.figureFactory ++ [(impl.TYPE, impl)]⟩, res)

/-- The public variadic Factory::registerFigure<Args...>(): starts with
res = true and runs the single-type registration for each argument in order,
threading res through; returns the final res. -/
def Factory.registerFigure (fac : Factory) (impls : List FigureImpl) :
    Factory × Bool :=
  impls.foldl (fun st i => Factory.registerFigure1 st.1 i st.2) (fac, true)

/-- Factory::createFigure: looks the kind up in the registry; returns null
for an unregistered kind, otherwise runs the stored constructor, which
allocates a fresh object (the next-address counter advances by one). The
factory itself is const: it is not modified. -/
def Factory.createFigure (fac : Factory) (type : Nat) (heap : Nat) :
    Option Figure × Nat :=
  match assocFind type fac.figureFactory with
  | none => (none, heap)
  | some impl => (some (impl.construct heap), heap + 1)

/-- The byte source as seen by one Feature::read call: the outcome of the
kind-tag read (`none` models a short read of the tag) and the numeric values
available for the subsequent parameter read. A parameter read of n values
succeeds exactly when n values are available. -/
structure Source where
  tagRead : Option Nat
  avail : List Val
deriving DecidableEq, Repr

/-- The state of class Feature: the per-kind cache of constructed figures
(std::unordered_map<Type, std::shared_ptr<Figure>>), the currentFigure
pointer (none models nullptr) and the currentParams vector. -/
structure Feature where
  figures : List (Nat × Figure)
  currentFigure : Option Figure
  currentParams : List Val
deriving DecidableEq, Repr

/-- A freshly constructed Feature: empty cache, null currentFigure, empty
currentParams. -/
def Feature.init : Feature := ⟨[], none, []⟩

/-- Feature::read. Reads the kind tag (failure returns false at once); looks
the kind up in the cache and, on a miss, asks the factory for a new figure
(null means unregistered: return false) and emplaces it in the cache; builds
a vector of countParams values and reads them (a short read returns false);
only then assigns currentFigure and currentParams and returns true. The
next-fresh-address counter `heap` is threaded through the factory call. -/
def Feature.read (factory : Factory) (fea : Feature) (src : Source)
    (heap : Nat) : Bool × Feature × Nat :=
  match src.tagRead with
  | none => (false, fea, heap)
  | some type =>
    match assocFind type fea.figures with
    | some figure =>
        if figure.countParams ≤ src.avail.length then
          (true,
           { fea with
               currentFigure := some figure
               currentParams := src.avail.take figure.countParams },
           heap)
        else (false, fea, heap)
    | none =>
        match Factory.createFigure factory type heap with
        | (none, heap2) => (false, fea, heap2)
        | (some figure, heap2) =>
            let fea2 : Feature :=
              { fea with figures := fea.figures ++ [(type, figure)] }
            if figure.countParams ≤ src.avail.length then
              (true,
               { fea2 with
                   currentFigure := some figure
                   currentParams := src.avail.take figure.countParams },
               heap2)
            else (false, fea2, heap2)

/-- Feature::draw: null currentFigure means nothing happens; otherwise the
held figure draws with the held parameters. The method writes no member, so
the state component of the result equals the input state. -/
def Feature.draw (fea : Feature) : List DrawCall × Feature :=
  match fea.currentFigure with
  | none => ([], fea)
  | some figure => (figure.draw fea.currentParams, fea)

/-- Feature::isValid: whether currentFigure is non-null. -/
def Feature.isValid (fea : Feature) : Bool :=
  fea.currentFigure.isSome

/-- The operations a caller can perform on a Feature after construction. -/
inductive Op where
  | decode (src : Source)
  | render
deriving DecidableEq, Repr

/-- One caller-visible operation on the decoder state (the Feature paired
with the next-fresh-address counter). -/
def stepOp (fac : Factory) (st : Feature × Nat) : Op → Feature × Nat
  | .decode src =>
      let r := Feature.read fac st.1 src st.2
      (r.2.1, r.2.2)
  | .render => ((Feature.draw st.1).2, st.2)

/-- Running a sequence of operations. -/
def runOps (fac : Factory) (st : Feature × Nat) (ops : List Op) :
    Feature × Nat :=
  ops.foldl (stepOp fac) st

/-- The factory as set up by main: registerFigure<Circle, Triangle, Square>
on a default-constructed factory. -/
def mainFactory : Factory :=
  (Factory.registerFigure Factory.empty
    [FigureImpl.Circle, FigureImpl.Triangle, FigureImpl.Square]).1

/-- Specification-side predicate, written from the words of the spec for the
batch-registration claim: every individual registration in the batch succeeds
when the batch is processed in order (a registration succeeds exactly when
its kind is not yet present at its turn). -/
def allRegistrationsSucceed (fac : Factory) : List FigureImpl → Bool
  | [] => true
  | i :: rest =>
    match assocFind i.TYPE fac.figureFactory with
    | some _ => false
    | none => allRegistrationsSucceed (Factory.registerFigure1 fac i true).1 rest

/-! Helper lemmas -/

/-- Emplacing a key that was absent makes a subsequent lookup find it. -/
theorem assocFind_append_none {α : Type} (k : Nat) (v : α) (l : List (Nat × α)) :
    assocFind k l = none → assocFind k (l ++ [(k, v)]) = some v := by
  induction l with
  | nil => intro _; simp [assocFind]
  | cons p rest ih =>
      obtain ⟨k2, v2⟩ := p
      intro hl
      simp only [assocFind, List.cons_append] at hl ⊢
      by_cases hk : k = k2
      · rw [if_pos hk] at hl
        cases hl
      · rw [if_neg hk] at hl ⊢
        exact ih hl

/-- Complete case analysis of Feature::read: the kind-tag read fails, or the
kind is cached (parameter read succeeds or is short), or the kind is not
cached and the factory does not know it, or the factory constructs it (and
the parameter read succeeds or is short). -/
theorem read_cases (fac : Factory) (fea : Feature) (src : Source) (heap : Nat) :
    (src.tagRead = none ∧ Feature.read fac fea src heap = (false, fea, heap)) ∨
    (∃ type fig, src.tagRead = some type ∧ assocFind type fea.figures = some fig ∧
      ((fig.countParams ≤ src.avail.length ∧
          Feature.read fac fea src heap =
            (true, ⟨fea.figures, some fig, src.avail.take fig.countParams⟩, heap)) ∨
       (¬ fig.countParams ≤ src.avail.length ∧
          Feature.read fac fea src heap = (false, fea, heap)))) ∨
    (∃ type, src.tagRead = some type ∧ assocFind type fea.figures = none ∧
      ((assocFind type fac.figureFactory = none ∧
          Feature.read fac fea src heap = (false, fea, heap)) ∨
       (∃ impl, assocFind type fac.figureFactory = some impl ∧
         (((impl.construct heap).countParams ≤ src.avail.length ∧
             Feature.read fac fea src heap =
               (true, ⟨fea.figures ++ [(type, impl.construct heap)],
                       some (impl.construct heap),
                       src.avail.take (impl.construct heap).countParams⟩, heap + 1)) ∨
          (¬ (impl.construct heap).countParams ≤ src.avail.length ∧
             Feature.read fac fea src heap =
               (false, ⟨fea.figures ++ [(type, impl.construct heap)],
                        fea.currentFigure, fea.currentParams⟩, heap + 1)))))) := by
  cases htag : src.tagRead with
  | none =>
      exact Or.inl ⟨rfl, by simp [Feature.read, htag]⟩
  | some type =>
      cases hfind : assocFind type fea.figures with
      | some fig =>
          by_cases hle : fig.countParams ≤ src.avail.length
          · exact Or.inr (Or.inl ⟨type, fig, rfl, hfind,
              Or.inl ⟨hle, by simp [Feature.read, htag, hfind, hle]⟩⟩)
          · exact Or.inr (Or.inl ⟨type, fig, rfl, hfind,
              Or.inr ⟨hle, by simp [Feature.read, htag, hfind, hle]⟩⟩)
      | none =>
          cases hcf : assocFind type fac.figureFactory with
          | none =>
              exact Or.inr (Or.inr ⟨type, rfl, hfind, Or.inl ⟨hcf,
                by simp [Feature.read, Factory.createFigure, htag, hfind, hcf]⟩⟩)
          | some impl =>
              by_cases hle : (impl.construct heap).countParams ≤ src.avail.length
              · exact Or.inr (Or.inr ⟨type, rfl, hfind, Or.inr ⟨impl, hcf, Or.inl
                  ⟨hle, by simp [Feature.read, Factory.createFigure, htag, hfind, hcf, hle]⟩⟩⟩)
              · exact Or.inr (Or.inr ⟨type, rfl, hfind, Or.inr ⟨impl, hcf, Or.inr
                  ⟨hle, by simp [Feature.read, Factory.createFigure, htag, hfind, hcf, hle]⟩⟩⟩)

/-- A failed Feature::read leaves currentFigure and currentParams exactly as
they were. -/
theorem read_fail_state_eq (fac : Factory) (fea : Feature) (src : Source)
    (heap : Nat) (h : (Feature.read fac fea src heap).1 = false) :
    (Feature.read fac fea src heap).2.1.currentFigure = fea.currentFigure ∧
    (Feature.read fac fea src heap).2.1.currentParams = fea.currentParams := by
  rcases read_cases fac fea src heap with
    ⟨_, heq⟩ |
    ⟨type, fig, _, _, ⟨_, heq⟩ | ⟨_, heq⟩⟩ |
    ⟨type, _, _, ⟨_, heq⟩ | ⟨impl, _, ⟨_, heq⟩ | ⟨_, heq⟩⟩⟩ <;>
    rw [heq] at h ⊢ <;> simp_all

/-- A successful Feature::read sets currentFigure to some figure and
currentParams to exactly that figure's parameter count taken from the
available values. -/
theorem read_success_char (fac : Factory) (fea : Feature) (src : Source)
    (heap : Nat) (h : (Feature.read fac fea src heap).1 = true) :
    ∃ fig, (Feature.read fac fea src heap).2.1.currentFigure = some fig ∧
      fig.countParams ≤ src.avail.length ∧
      (Feature.read fac fea src heap).2.1.currentParams
        = src.avail.take fig.countParams := by
  rcases read_cases fac fea src heap with
    ⟨_, heq⟩ |
    ⟨type, fig, _, _, ⟨hle, heq⟩ | ⟨_, heq⟩⟩ |
    ⟨type, _, _, ⟨_, heq⟩ | ⟨impl, _, ⟨hle, heq⟩ | ⟨_, heq⟩⟩⟩ <;>
    rw [heq] at h ⊢ <;> simp_all

/-- With res already false, a single registration keeps res false. -/
theorem registerFigure1_false_snd (fac : Factory) (impl : FigureImpl) :
    (Factory.registerFigure1 fac impl false).2 = false := by
  unfold Factory.registerFigure1
  cases hx : assocFind impl.TYPE fac.figureFactory <;> simp

/-- Once res is false, the rest of the batch fold leaves it false. -/
theorem registerFigure_foldl_false (impls : List FigureImpl) :
    ∀ fac : Factory,
      (impls.foldl (fun st i => Factory.registerFigure1 st.1 i st.2)
        (fac, false)).2 = false := by
  induction impls with
  | nil => intro fac; rfl
  | cons i rest ih =>
      intro fac
      show (List.foldl (fun st i => Factory.registerFigure1 st.1 i st.2)
        (Factory.registerFigure1 fac i false) rest).2 = false
      rcases hx : Factory.registerFigure1 fac i false with ⟨fac2, b⟩
      have hb : b = false := by
        have hsnd := registerFigure1_false_snd fac i
        rw [hx] at hsnd
        exact hsnd
      rw [hb]
      exact ih fac2

/-- The batch fold started with res true computes exactly the
specification-side all-registrations-succeed predicate. -/
theorem registerFigure_foldl_true (impls : List FigureImpl) :
    ∀ fac : Factory,
      (impls.foldl (fun st i => Factory.registerFigure1 st.1 i st.2)
        (fac, true)).2 = allRegistrationsSucceed fac impls := by
  induction impls with
  | nil => intro fac; rfl
  | cons i rest ih =>
      intro fac
      show (List.foldl (fun st i => Factory.registerFigure1 st.1 i st.2)
        (Factory.registerFigure1 fac i true) rest).2
          = allRegistrationsSucceed fac (i :: rest)
      cases hx : assocFind i.TYPE fac.figureFactory with
      | some impl2 =>
          have hreg : Factory.registerFigure1 fac i true = (fac, false) := by
            unfold Factory.registerFigure1
            rw [hx]
          rw [hreg]
          have hspec : allRegistrationsSucceed fac (i :: rest) = false := by
            simp [allRegistrationsSucceed, hx]
          rw [hspec]
          exact registerFigure_foldl_false rest fac
      | none =>
          have hreg : Factory.registerFigure1 fac i true
              = (⟨fac.figureFactory ++ [(i.TYPE, i)]⟩, true) := by
            unfold Factory.registerFigure1
            rw [hx]
          have hspec : allRegistrationsSucceed fac (i :: rest)
              = allRegistrationsSucceed (⟨fac.figureFactory ++ [(i.TYPE, i)]⟩ : Factory) rest := by
            simp [allRegistrationsSucceed, hx, hreg]
          rw [hreg, hspec]
          exact ih _

/-- A Feature::read call never nulls a non-null currentFigure. -/
theorem read_preserves_valid (fac : Factory) (fea : Feature) (src : Source)
    (heap : Nat) (h : fea.currentFigure.isSome = true) :
    ((Feature.read fac fea src heap).2.1).currentFigure.isSome = true := by
  cases hb : (Feature.read fac fea src heap).1 with
  | false =>
      have hkeep := (read_fail_state_eq fac fea src heap hb).1
      rw [hkeep]
      exact h
  | true =>
      obtain ⟨fig, hfig, _, _⟩ := read_success_char fac fea src heap hb
      rw [hfig]
      rfl

/-! Claim theorems -/

/-- C3: registering a kind that is already present in the registry fails
(returns res false), leaves the registry unchanged, and a subsequent
createFigure for that kind still runs the first-registered constructor. -/
theorem register_duplicate_keeps_first (fac : Factory) (impl first : FigureImpl)
    (res : Bool) (heap : Nat)
    (h : assocFind impl.TYPE fac.figureFactory = some first) :
    (Factory.registerFigure1 fac impl res).2 = false ∧
    (Factory.registerFigure1 fac impl res).1 = fac ∧
    (Factory.createFigure (Factory.registerFigure1 fac impl res).1 impl.TYPE heap).1
      = some (first.construct heap) := by
  have hreg : Factory.registerFigure1 fac impl res = (fac, false) := by
    unfold Factory.registerFigure1
    rw [h]
  refine ⟨by rw [hreg], by rw [hreg], ?_⟩
  rw [hreg]
  simp [Factory.createFigure, h]

/-- Witness for register_duplicate_keeps_first: in the factory set up by
main, Circle is registered, so a second registration of Circle fails and
createFigure still produces the Circle constructor product. -/
theorem register_duplicate_keeps_first_witness :
    assocFind FigureImpl.Circle.TYPE mainFactory.figureFactory
      = some FigureImpl.Circle ∧
    ((Factory.registerFigure1 mainFactory FigureImpl.Circle true).2 = false ∧
     (Factory.registerFigure1 mainFactory FigureImpl.Circle true).1 = mainFactory ∧
     (Factory.createFigure
        (Factory.registerFigure1 mainFactory FigureImpl.Circle true).1
        FigureImpl.Circle.TYPE 0).1 = some (FigureImpl.Circle.construct 0)) :=
  ⟨by decide,
   register_duplicate_keeps_first mainFactory FigureImpl.Circle FigureImpl.Circle
     true 0 (by decide)⟩

/-- C4: for each kind registered by main, createFigure yields that kind of
figure, and draw on a parameter list of exactly the required length issues
exactly one correct primitive with the input values unaltered: Circle calls
drawCircle with params[0], params[1], params[2]; Triangle and Square call
drawPoligon with the full parameter list. -/
theorem draw_exact_params_invokes_primitive (heap : Nat) :
    ((Factory.createFigure mainFactory eCircle heap).1
        = some (FigureImpl.Circle.construct heap) ∧
      ∀ x y r : Val, (FigureImpl.Circle.construct heap).draw [x, y, r]
        = [DrawCall.drawCircle x y r]) ∧
    ((Factory.createFigure mainFactory eTriangle heap).1
        = some (FigureImpl.Triangle.construct heap) ∧
      ∀ a b c d e f : Val,
        (FigureImpl.Triangle.construct heap).draw [a, b, c, d, e, f]
          = [DrawCall.drawPoligon [a, b, c, d, e, f]]) ∧
    ((Factory.createFigure mainFactory eSquare heap).1
        = some (FigureImpl.Square.construct heap) ∧
      ∀ a b c d e f g h : Val,
        (FigureImpl.Square.construct heap).draw [a, b, c, d, e, f, g, h]
          = [DrawCall.drawPoligon [a, b, c, d, e, f, g, h]]) := by
  refine ⟨⟨rfl, ?_⟩, ⟨rfl, ?_⟩, ⟨rfl, ?_⟩⟩ <;> intros <;> rfl

/-- C6: each variant with fewer parameters than its required count draws
nothing at all. -/
theorem draw_short_params_noop (addr : Nat) (params : List Val) :
    (params.length < 3 → (FigureImpl.Circle.construct addr).draw params = []) ∧
    (params.length < 6 → (FigureImpl.Triangle.construct addr).draw params = []) ∧
    (params.length < 8 → (FigureImpl.Square.construct addr).draw params = []) := by
  refine ⟨fun h => ?_, fun h => ?_, fun h => ?_⟩ <;>
    (simp only [Figure.draw, FigureImpl.construct]; rw [if_neg (by omega)])

/-- Witness for draw_short_params_noop: a one-element list is shorter than
the circle requirement and draws nothing. -/
theorem draw_short_params_noop_witness :
    ([(5 : Val)].length < 3) ∧
    (FigureImpl.Circle.construct 0).draw [(5 : Val)] = [] :=
  ⟨by decide, (draw_short_params_noop 0 [(5 : Val)]).1 (by decide)⟩

/-- C9: the public batch registerFigure returns true exactly when every
individual registration in the batch succeeded; a single duplicate anywhere
in the batch makes the overall result false. -/
theorem batch_register_true_iff_all_succeed (fac : Factory)
    (impls : List FigureImpl) :
    (Factory.registerFigure fac impls).2 = true ↔
      allRegistrationsSucceed fac impls = true := by
  unfold Factory.registerFigure
  rw [registerFigure_foldl_true impls fac]

/-- C1 counterexample: after a successful decode, a second decode whose
kind-tag read fails returns false, yet the decoder still holds the previous
record and isValid() stays true — so a failed decode does not always leave
the state empty. -/
theorem decode_fail_after_success_counterexample :
    (Feature.read mainFactory
       (Feature.read mainFactory Feature.init ⟨some eCircle, [1, 2, 3]⟩ 0).2.1
       ⟨none, []⟩ 1).1 = false ∧
    (Feature.read mainFactory
       (Feature.read mainFactory Feature.init ⟨some eCircle, [1, 2, 3]⟩ 0).2.1
       ⟨none, []⟩ 1).2.1.isValid = true := by
  decide

/-- C1 (amended): every failed decode of a decoder that holds no record
(currentFigure null) leaves the state empty and isValid() false — for all
three failure modes; a decoder already holding a record instead retains it. -/
theorem decode_fail_from_empty_leaves_empty (fac : Factory) (fea : Feature)
    (src : Source) (heap : Nat)
    (hempty : fea.currentFigure = none)
    (hfail : (Feature.read fac fea src heap).1 = false) :
    (Feature.read fac fea src heap).2.1.currentFigure = none ∧
    (Feature.read fac fea src heap).2.1.isValid = false := by
  have hkeep := (read_fail_state_eq fac fea src heap hfail).1
  constructor
  · rw [hkeep]
    exact hempty
  · unfold Feature.isValid
    rw [hkeep, hempty]
    rfl

/-- Witness for decode_fail_from_empty_leaves_empty: a fresh decoder fed a
circle tag but only one of the three required parameters fails and stays
empty. -/
theorem decode_fail_from_empty_leaves_empty_witness :
    Feature.init.currentFigure = none ∧
    (Feature.read mainFactory Feature.init ⟨some eCircle, [1]⟩ 0).1 = false ∧
    ((Feature.read mainFactory Feature.init ⟨some eCircle, [1]⟩ 0).2.1.currentFigure
        = none ∧
     (Feature.read mainFactory Feature.init ⟨some eCircle, [1]⟩ 0).2.1.isValid
        = false) :=
  ⟨rfl, by decide,
   decode_fail_from_empty_leaves_empty mainFactory Feature.init ⟨some eCircle, [1]⟩ 0
     rfl (by decide)⟩

/-- C2: decode is atomic with respect to the held record: whenever a read
fails — at the tag, at the registry lookup, or at the parameter read — the
previously held currentFigure and currentParams are left exactly as they
were; they are replaced only by a fully successful read. -/
theorem decode_atomic_on_failure (fac : Factory) (fea : Feature) (src : Source)
    (heap : Nat) (hfail : (Feature.read fac fea src heap).1 = false) :
    (Feature.read fac fea src heap).2.1.currentFigure = fea.currentFigure ∧
    (Feature.read fac fea src heap).2.1.currentParams = fea.currentParams :=
  read_fail_state_eq fac fea src heap hfail

/-- Witness for decode_atomic_on_failure: a decoder holding a circle record
is unchanged by a decode of an unregistered kind 99. -/
theorem decode_atomic_on_failure_witness :
    (Feature.read mainFactory
       ⟨[], some (FigureImpl.Circle.construct 0), [1, 2, 3]⟩ ⟨some 99, []⟩ 1).1
      = false ∧
    ((Feature.read mainFactory
        ⟨[], some (FigureImpl.Circle.construct 0), [1, 2, 3]⟩ ⟨some 99, []⟩ 1).2.1.currentFigure
       = (⟨[], some (FigureImpl.Circle.construct 0), [1, 2, 3]⟩ : Feature).currentFigure ∧
     (Feature.read mainFactory
        ⟨[], some (FigureImpl.Circle.construct 0), [1, 2, 3]⟩ ⟨some 99, []⟩ 1).2.1.currentParams
       = (⟨[], some (FigureImpl.Circle.construct 0), [1, 2, 3]⟩ : Feature).currentParams) :=
  ⟨by decide,
   decode_atomic_on_failure mainFactory
     ⟨[], some (FigureImpl.Circle.construct 0), [1, 2, 3]⟩ ⟨some 99, []⟩ 1 (by decide)⟩

/-- C7: Circle, Triangle and Square fix parameter counts 3, 6 and 8 at
construction; a successful decode consumes exactly the resolved figure
parameter count of values from the source (currentParams is exactly that
prefix), and a source holding fewer values than the resolved figure requires
makes the whole decode fail rather than produce a partial record. -/
theorem param_counts_and_exact_consumption :
    (∀ addr : Nat,
       (FigureImpl.Circle.construct addr).countParams = 3 ∧
       (FigureImpl.Triangle.construct addr).countParams = 6 ∧
       (FigureImpl.Square.construct addr).countParams = 8) ∧
    (∀ fac fea src heap, (Feature.read fac fea src heap).1 = true →
       ∃ fig, (Feature.read fac fea src heap).2.1.currentFigure = some fig ∧
         fig.countParams ≤ src.avail.length ∧
         (Feature.read fac fea src heap).2.1.currentParams
           = src.avail.take fig.countParams ∧
         ((Feature.read fac fea src heap).2.1.currentParams).length
           = fig.countParams) ∧
    (∀ fac fea src heap type fig, src.tagRead = some type →
       (assocFind type fea.figures = some fig ∨
        (assocFind type fea.figures = none ∧
         (Factory.createFigure fac type heap).1 = some fig)) →
       src.avail.length < fig.countParams →
       (Feature.read fac fea src heap).1 = false) := by
  refine ⟨?_, ?_, ?_⟩
  · intro addr
    exact ⟨rfl, rfl, rfl⟩
  · intro fac fea src heap hsucc
    obtain ⟨fig, h1, h2, h3⟩ := read_success_char fac fea src heap hsucc
    refine ⟨fig, h1, h2, h3, ?_⟩
    rw [h3, List.length_take]
    exact Nat.min_eq_left h2
  · intro fac fea src heap type fig htag hres hshort
    rcases read_cases fac fea src heap with
      ⟨htag2, heq⟩ |
      ⟨type2, fig2, htag2, hfind2, ⟨hle, heq⟩ | ⟨hle, heq⟩⟩ |
      ⟨type2, htag2, hfind2, ⟨hcf2, heq⟩ | ⟨impl, hcf2, ⟨hle, heq⟩ | ⟨hle, heq⟩⟩⟩ <;>
      rw [heq] <;>
      simp_all [Factory.createFigure] <;>
      omega

/-- Witness for param_counts_and_exact_consumption: a fresh decoder reading
a circle record with exactly three values succeeds and consumes them all. -/
theorem param_counts_and_exact_consumption_witness :
    (Feature.read mainFactory Feature.init ⟨some eCircle, [7, 8, 9]⟩ 0).1 = true ∧
    (∃ fig,
       (Feature.read mainFactory Feature.init ⟨some eCircle, [7, 8, 9]⟩ 0).2.1.currentFigure
         = some fig ∧
       fig.countParams ≤ (Source.mk (some eCircle) [7, 8, 9]).avail.length ∧
       (Feature.read mainFactory Feature.init ⟨some eCircle, [7, 8, 9]⟩ 0).2.1.currentParams
         = (Source.mk (some eCircle) [7, 8, 9]).avail.take fig.countParams ∧
       ((Feature.read mainFactory Feature.init ⟨some eCircle, [7, 8, 9]⟩ 0).2.1.currentParams).length
         = fig.countParams) :=
  ⟨by decide,
   param_counts_and_exact_consumption.2.1 mainFactory Feature.init
     ⟨some eCircle, [7, 8, 9]⟩ 0 (by decide)⟩

/-- Feature::draw writes no member: the state component of its result is the
input state, whatever the held record is. -/
theorem draw_snd_eq (fea : Feature) : (Feature.draw fea).2 = fea := by
  cases hcf : fea.currentFigure <;> simp [Feature.draw, hcf]

/-- C8: Feature::draw renders nothing when no record is held; when a record
is held it invokes the held figure draw on the held parameters; it leaves
the state untouched, so two consecutive renders of the same held record
produce identical call sequences. -/
theorem render_noop_empty_idempotent (fea : Feature) :
    (fea.currentFigure = none → (Feature.draw fea).1 = []) ∧
    (∀ fig, fea.currentFigure = some fig →
       (Feature.draw fea).1 = fig.draw fea.currentParams) ∧
    (Feature.draw fea).2 = fea ∧
    (Feature.draw ((Feature.draw fea).2)).1 = (Feature.draw fea).1 := by
  refine ⟨fun hnone => ?_, fun fig hfig => ?_, draw_snd_eq fea, ?_⟩
  · simp [Feature.draw, hnone]
  · simp [Feature.draw, hfig]
  · rw [draw_snd_eq fea]

/-- Witness for render_noop_empty_idempotent: a decoder holding a circle
record renders by invoking the circle draw on the held parameters. -/
theorem render_noop_empty_idempotent_witness :
    (⟨[], some (FigureImpl.Circle.construct 0), [1, 2, 3]⟩ : Feature).currentFigure
      = some (FigureImpl.Circle.construct 0) ∧
    (Feature.draw ⟨[], some (FigureImpl.Circle.construct 0), [1, 2, 3]⟩).1
      = (FigureImpl.Circle.construct 0).draw
          (⟨[], some (FigureImpl.Circle.construct 0), [1, 2, 3]⟩ : Feature).currentParams :=
  ⟨rfl,
   (render_noop_empty_idempotent
      ⟨[], some (FigureImpl.Circle.construct 0), [1, 2, 3]⟩).2.1
     (FigureImpl.Circle.construct 0) rfl⟩

/-- C5: a figure is constructed through the factory only on the first decode
of each distinct kind: a cache hit performs no construction (the fresh-address
counter does not move, the cache is unchanged) and reuses the cached object;
a cache miss for a registered kind constructs exactly one object and caches
it under its kind. Factory::createFigure itself constructs a fresh object on
every call — consecutive calls yield distinct objects — and caches nothing. -/
theorem decoder_caches_factory_fresh :
    (∀ fac fea src heap type fig, src.tagRead = some type →
       assocFind type fea.figures = some fig →
       (Feature.read fac fea src heap).2.2 = heap ∧
       (Feature.read fac fea src heap).2.1.figures = fea.figures ∧
       ((Feature.read fac fea src heap).1 = true →
         (Feature.read fac fea src heap).2.1.currentFigure = some fig)) ∧
    (∀ fac fea src heap type impl, src.tagRead = some type →
       assocFind type fea.figures = none →
       assocFind type fac.figureFactory = some impl →
       assocFind type (Feature.read fac fea src heap).2.1.figures
         = some (impl.construct heap) ∧
       (Feature.read fac fea src heap).2.2 = heap + 1) ∧
    (∀ fac type heap impl, assocFind type fac.figureFactory = some impl →
       Factory.createFigure fac type heap = (some (impl.construct heap), heap + 1) ∧
       impl.construct heap ≠ impl.construct (heap + 1)) := by
  refine ⟨?_, ?_, ?_⟩
  · intro fac fea src heap type fig htag hfind
    rcases read_cases fac fea src heap with
      ⟨htag2, heq⟩ |
      ⟨type2, fig2, htag2, hfind2, ⟨hle, heq⟩ | ⟨hle, heq⟩⟩ |
      ⟨type2, htag2, hfind2, ⟨hcf2, heq⟩ | ⟨impl, hcf2, ⟨hle, heq⟩ | ⟨hle, heq⟩⟩⟩
    · rw [htag] at htag2
      cases htag2
    · rw [htag] at htag2
      injection htag2 with hty
      subst hty
      rw [hfind] at hfind2
      injection hfind2 with hfg
      subst hfg
      rw [heq]
      exact ⟨rfl, rfl, fun _ => rfl⟩
    · rw [htag] at htag2
      injection htag2 with hty
      subst hty
      rw [hfind] at hfind2
      injection hfind2 with hfg
      subst hfg
      rw [heq]
      exact ⟨rfl, rfl, fun hc => absurd hc (by simp)⟩
    · rw [htag] at htag2
      injection htag2 with hty
      subst hty
      rw [hfind] at hfind2
      cases hfind2
    · rw [htag] at htag2
      injection htag2 with hty
      subst hty
      rw [hfind] at hfind2
      cases hfind2
    · rw [htag] at htag2
      injection htag2 with hty
      subst hty
      rw [hfind] at hfind2
      cases hfind2
  · intro fac fea src heap type impl htag hfind hreg
    rcases read_cases fac fea src heap with
      ⟨htag2, heq⟩ |
      ⟨type2, fig2, htag2, hfind2, ⟨hle, heq⟩ | ⟨hle, heq⟩⟩ |
      ⟨type2, htag2, hfind2, ⟨hcf2, heq⟩ | ⟨impl2, hcf2, ⟨hle, heq⟩ | ⟨hle, heq⟩⟩⟩
    · rw [htag] at htag2
      cases htag2
    · rw [htag] at htag2
      injection htag2 with hty
      subst hty
      rw [hfind] at hfind2
      cases hfind2
    · rw [htag] at htag2
      injection htag2 with hty
      subst hty
      rw [hfind] at hfind2
      cases hfind2
    · rw [htag] at htag2
      injection htag2 with hty
      subst hty
      rw [hreg] at hcf2
      cases hcf2
    · rw [htag] at htag2
      injection htag2 with hty
      subst hty
      rw [hreg] at hcf2
      injection hcf2 with himp
      subst himp
      rw [heq]
      exact ⟨assocFind_append_none type (impl.construct heap) fea.figures hfind, rfl⟩
    · rw [htag] at htag2
      injection htag2 with hty
      subst hty
      rw [hreg] at hcf2
      injection hcf2 with himp
      subst himp
      rw [heq]
      exact ⟨assocFind_append_none type (impl.construct heap) fea.figures hfind, rfl⟩
  · intro fac type heap impl hreg
    constructor
    · unfold Factory.createFigure
      rw [hreg]
    · intro hcontra
      have haddr : (impl.construct heap).addr = (impl.construct (heap + 1)).addr := by
        rw [hcontra]
      simp [FigureImpl.construct] at haddr

/-- Witness for decoder_caches_factory_fresh: the first decode of a circle
record by a fresh decoder constructs the circle figure at address 0, caches
it under the circle kind and advances the fresh-address counter by one. -/
theorem decoder_caches_factory_fresh_witness :
    (Source.mk (some eCircle) [1, 2, 3]).tagRead = some eCircle ∧
    assocFind eCircle Feature.init.figures = none ∧
    assocFind eCircle mainFactory.figureFactory = some FigureImpl.Circle ∧
    (assocFind eCircle
       (Feature.read mainFactory Feature.init ⟨some eCircle, [1, 2, 3]⟩ 0).2.1.figures
       = some (FigureImpl.Circle.construct 0) ∧
     (Feature.read mainFactory Feature.init ⟨some eCircle, [1, 2, 3]⟩ 0).2.2 = 0 + 1) :=
  ⟨rfl, rfl, by decide,
   decoder_caches_factory_fresh.2.1 mainFactory Feature.init
     ⟨some eCircle, [1, 2, 3]⟩ 0 eCircle FigureImpl.Circle rfl rfl (by decide)⟩

/-- C10: once a decode has succeeded (isValid true), no further sequence of
decode and render operations ever makes isValid false again: the decoder
never transitions from holding a record back to empty. -/
theorem isValid_monotone (fac : Factory) (st : Feature × Nat) (ops : List Op)
    (h : st.1.isValid = true) :
    (runOps fac st ops).1.isValid = true := by
  induction ops generalizing st with
  | nil => exact h
  | cons op rest ih =>
      have hstep : (stepOp fac st op).1.isValid = true := by
        cases op with
        | decode src => exact read_preserves_valid fac st.1 src st.2 h
        | render =>
            show ((Feature.draw st.1).2).currentFigure.isSome = true
            rw [draw_snd_eq st.1]
            exact h
      show (runOps fac (stepOp fac st op) rest).1.isValid = true
      exact ih (stepOp fac st op) hstep

/-- Witness for isValid_monotone: a decoder holding a circle record stays
valid through a render, a decode with a failed tag read and a decode of an
unregistered kind. -/
theorem isValid_monotone_witness :
    ((⟨[], some (FigureImpl.Circle.construct 0), [1, 2, 3]⟩ : Feature), 1).1.isValid
      = true ∧
    (runOps mainFactory (⟨[], some (FigureImpl.Circle.construct 0), [1, 2, 3]⟩, 1)
       [Op.render, Op.decode ⟨none, []⟩, Op.decode ⟨some 99, [4]⟩]).1.isValid
      = true :=
  ⟨by decide,
   isValid_monotone mainFactory
     (⟨[], some (FigureImpl.Circle.construct 0), [1, 2, 3]⟩, 1)
     [Op.render, Op.decode ⟨none, []⟩, Op.decode ⟨some 99, [4]⟩] (by decide)⟩
